import Mathlib

/-!
Verification of the renegade wallet state machine and match-settlement
pipeline against its specification.

The development shallowly embeds the Rust source:
* `src/common/src/types/wallet/shares.rs` (reblinding and share checks),
* `src/circuit-types/src/match.rs` (match-result algebra),
* `src/darkpool-client/src/arbitrum/helpers.rs` (share extraction from
  calldata and malleable-match application),
* `src/workers/task-driver/src/tasks/pay_offline_fee.rs` (the pay-offline-fee
  task state machine and its errors).

The field of scalars is kept abstract: all definitions are parametric over a
commutative ring `F` and a hash-chain step `H : F → F`, matching the spec's
"Scalar ... supports add/sub/mul ... and a deterministic hash-chain step".
Helpers living outside the given sources (`evaluate_hash_chain`,
`create_wallet_shares_from_private`, `wallet_from_blinded_shares`,
`FixedPoint`, `apply_match_to_shares`, `compute_fee_take`) are modelled from
the spec, as marked in their doc comments.
-/

namespace Renegade

/-! ## Hash chain and wallet shares -/

/-- Modelled from the spec: `renegade_crypto::hash::evaluate_hash_chain` is
not among the given sources.  Per §3 the scalar type supports "a deterministic
hash-chain step `H(x) → x'`", and per §4.1 / S2 the chain of length `k` seeded
at `s` is `[H(s), H²(s), …, H^k(s)]` (the first output of the length-2 chain on
the blinder share is the new blinder `H(blinder)`). -/
def evaluate_hash_chain {F : Type} (H : F → F) (seed : F) (length : ℕ) : List F :=
  (List.range length).map (fun i => H^[i + 1] seed)

/-- A wallet share vector (`WalletShare` in `circuit-types`): a fixed-size
vector of scalars whose last element is the blinder share (spec §3).  We model
it as the list of non-blinder scalars together with the blinder share. -/
structure WalletShare (F : Type) where
  /-- The non-blinder scalars of the share vector -/
  shares : List F
  /-- The blinder share, serialized as the last element -/
  blinder : F
  deriving DecidableEq, Repr

/-- Serialization `BaseType::to_scalars` on a wallet share: the blinder is serialized last
(spec §3: "last element is the blinder share"). -/
def WalletShare.to_scalars {F : Type} (ws : WalletShare F) : List F :=
  ws.shares ++ [ws.blinder]

/-- Deserialization `BaseType::from_scalars` on a wallet share: inverse of `to_scalars`. -/
def WalletShare.from_scalars {F : Type} [Zero F] (l : List F) : WalletShare F :=
  { shares := l.dropLast, blinder := (l.getLast?).getD 0 }

/-- The cleartext circuit wallet (`SizedWallet`): its serialization is the
list of content scalars with the wallet blinder in the final slot. -/
@[ext]
structure CircuitWallet (F : Type) where
  /-- The cleartext wallet contents (balances, orders, keys serialized) -/
  contents : List F
  /-- The wallet blinder -/
  blinder : F
  deriving DecidableEq, Repr

/-- Modelled from the spec: `circuit_types::native_helpers::wallet_from_blinded_shares`
is not among the given sources.  Per §4.1 reconstruction is linear
(`w_i = p_i + q_i`, "Secret share. Additive decomposition
cleartext = private + public over the field") and the final slot encodes the
blinder: the private and public blinder shares sum to the wallet blinder. -/
def wallet_from_blinded_shares {F : Type} [AddCommGroup F]
    (private_shares blinded_public_shares : WalletShare F) : CircuitWallet F :=
  { contents := List.zipWith (· + ·) private_shares.shares blinded_public_shares.shares
    blinder := private_shares.blinder + blinded_public_shares.blinder }

/-- Modelled from the spec: `circuit_types::native_helpers::create_wallet_shares_from_private`
is not among the given sources.  Per §4.1 "compute public-share vector `q`
such that `reconstruct(p, q, blinder) == w` ... `q_i = w_i − p_i` with the
final slot encoding the blinder" and step 4 "Recompute public shares as
`w − new_private_shares` with final blinder re-injection". -/
def create_wallet_shares_from_private {F : Type} [AddCommGroup F]
    (wallet : CircuitWallet F) (private_shares : WalletShare F) (blinder : F) :
    WalletShare F × WalletShare F :=
  (private_shares,
    { shares := List.zipWith (· - ·) wallet.contents private_shares.shares
      blinder := blinder - private_shares.blinder })

/-- The wallet aggregate (`common::types::wallet::Wallet`), restricted to the
fields the share routines touch: an id, the cleartext contents, the managing
cluster key, the blinder, the two share vectors and the optional Merkle
proof (abstracted to its presence and an identifying index). -/
structure Wallet (F : Type) where
  /-- The wallet id (abstracted to a natural) -/
  wallet_id : ℕ
  /-- The serialized cleartext contents (balances, orders, keys) -/
  contents : List F
  /-- The managing cluster key (abstracted to a scalar) -/
  managing_cluster : F
  /-- The wallet blinder -/
  blinder : F
  /-- The private secret shares -/
  private_shares : WalletShare F
  /-- The blinded public secret shares -/
  blinded_public_shares : WalletShare F
  /-- The Merkle opening, when present (abstracted) -/
  merkle_proof : Option ℕ
  deriving DecidableEq, Repr

namespace Wallet

/-- Conversion `self.clone().into()`: the circuit wallet of a `Wallet`. -/
def toCircuit {F : Type} (w : Wallet F) : CircuitWallet F :=
  { contents := w.contents, blinder := w.blinder }

/-- Embeds `Wallet::check_wallet_shares` (`shares.rs` lines 24–30): the wallet's
shares correctly add to its contents. -/
def check_wallet_shares {F : Type} [AddCommGroup F] [DecidableEq F] (w : Wallet F) : Prop :=
  w.toCircuit = wallet_from_blinded_shares w.private_shares w.blinded_public_shares

instance {F : Type} [AddCommGroup F] [DecidableEq F] (w : Wallet F) :
    Decidable (w.check_wallet_shares) := by
  unfold check_wallet_shares; infer_instance

/-- Embeds `Wallet::private_blinder_share` (`shares.rs` lines 48–50). -/
def private_blinder_share {F : Type} (w : Wallet F) : F :=
  w.private_shares.blinder

/-- Embeds `Wallet::public_blinder` (`shares.rs` lines 53–55). -/
def public_blinder {F : Type} (w : Wallet F) : F :=
  w.blinded_public_shares.blinder

/-- Embeds `Wallet::new_blinder_and_private_share` (`shares.rs` lines 78–85):
evaluate the hash chain of length 2 on the private blinder share; returns
`(new_blinder, new_blinder_private_share)`. -/
def new_blinder_and_private_share {F : Type} [Zero F] (H : F → F) (w : Wallet F) : F × F :=
  let blinder_and_private_share := evaluate_hash_chain H w.private_blinder_share 2
  (blinder_and_private_share.getD 0 0, blinder_and_private_share.getD 1 0)

/-- Embeds `Wallet::next_public_blinder` (`shares.rs` lines 58–61). -/
def next_public_blinder {F : Type} [AddCommGroup F] (H : F → F) (w : Wallet F) : F :=
  let p := w.new_blinder_and_private_share H
  p.1 - p.2

/-- Embeds `Wallet::reblind_wallet` (`shares.rs` lines 88–110): derive the next
share set from the hash chain, recompute public shares from the cleartext
wallet, set the new blinder and invalidate the Merkle opening. -/
def reblind_wallet {F : Type} [AddCommGroup F] (H : F → F) (w : Wallet F) : Wallet F :=
  let private_shares_serialized := w.private_shares.to_scalars
  let n_shares := private_shares_serialized.length
  let p := w.new_blinder_and_private_share H
  let new_private_shares :=
    evaluate_hash_chain H (private_shares_serialized.getD (n_shares - 2) 0) (n_shares - 1)
      ++ [p.2]
  let pair := create_wallet_shares_from_private w.toCircuit
      (WalletShare.from_scalars new_private_shares) p.1
  { w with
    private_shares := pair.1
    blinded_public_shares := pair.2
    blinder := p.1
    merkle_proof := none }

end Wallet

/-! ## Match-result algebra (`src/circuit-types/src/match.rs`) -/

/-- Type `Amount`: unsigned 128-bit integer.  Amounts are only compared, copied and
multiplied here, so we carry them as naturals. -/
abbrev Amount := ℕ

/-- Type `Address`: opaque token identifier ("mint"), compared by value. -/
abbrev Address := ℕ

/-- Embeds `OrderSide` (`circuit-types/src/order.rs`). -/
inductive OrderSide where
  | Buy
  | Sell
  deriving DecidableEq, Repr

/-- Embeds `MatchResult` (`match.rs` lines 34–57). -/
structure MatchResult where
  quote_mint : Address
  base_mint : Address
  quote_amount : Amount
  base_amount : Amount
  /-- The direction bit: `true` implies party 0 buys the quote and sells the base -/
  direction : Bool
  min_amount_order_index : Bool
  deriving DecidableEq, Repr

namespace MatchResult

/-- Embeds `MatchResult::send_mint_amount` (`match.rs` lines 61–68). -/
def send_mint_amount (m : MatchResult) (side : OrderSide) : Address × Amount :=
  match side with
  | .Buy => (m.quote_mint, m.quote_amount)
  | .Sell => (m.base_mint, m.base_amount)

/-- Embeds `MatchResult::receive_mint_amount` (`match.rs` lines 71–78). -/
def receive_mint_amount (m : MatchResult) (side : OrderSide) : Address × Amount :=
  match side with
  | .Buy => (m.base_mint, m.base_amount)
  | .Sell => (m.quote_mint, m.quote_amount)

end MatchResult

/-- Embeds `OrderSettlementIndices` (`match.rs` lines 88–97). -/
structure OrderSettlementIndices where
  balance_send : ℕ
  balance_receive : ℕ
  order : ℕ
  deriving DecidableEq, Repr

/-- Embeds `ExternalMatchResult` (`match.rs` lines 112–130). -/
structure ExternalMatchResult where
  quote_mint : Address
  base_mint : Address
  quote_amount : Amount
  base_amount : Amount
  /-- The direction bit: `true` implies the external party buys the base -/
  direction : Bool
  deriving DecidableEq, Repr

namespace ExternalMatchResult

/-- Embeds `ExternalMatchResult::external_party_receive` (`match.rs` lines 134–141). -/
def external_party_receive (m : ExternalMatchResult) : Address × Amount :=
  if m.direction then (m.base_mint, m.base_amount) else (m.quote_mint, m.quote_amount)

/-- Embeds `ExternalMatchResult::external_party_send` (`match.rs` lines 144–151). -/
def external_party_send (m : ExternalMatchResult) : Address × Amount :=
  if m.direction then (m.quote_mint, m.quote_amount) else (m.base_mint, m.base_amount)

/-- Embeds `ExternalMatchResult::internal_party_side` (`match.rs` lines 154–156). -/
def internal_party_side (m : ExternalMatchResult) : OrderSide :=
  if m.direction then .Sell else .Buy

/-- Embeds `ExternalMatchResult::to_match_result` (`match.rs` lines 166–175): the
internal party acts as party 0. -/
def to_match_result (m : ExternalMatchResult) : MatchResult :=
  { quote_mint := m.quote_mint
    base_mint := m.base_mint
    quote_amount := m.quote_amount
    base_amount := m.base_amount
    direction := m.direction
    min_amount_order_index := false }

end ExternalMatchResult

/-- Modelled from the spec: the implicit power-of-two denominator exponent of
`FixedPoint` (`circuit-types/src/fixed_point.rs` is not among the given
sources).  The spec fixes only that the denominator is a power of two; the
value of the exponent is irrelevant to the properties proved here. -/
def fpPrecision : ℕ := 63

/-- Modelled from the spec: `FixedPoint` is a "Rational represented as
`Scalar`-valued numerator over an implicit power-of-two denominator.
Multiplication by a `Scalar` yields a `Scalar` whose `floor` extracts the
integer part ... rounding is always toward zero" (§3).  We carry the numerator
as a natural. -/
structure FixedPoint where
  repr : ℕ
  deriving DecidableEq, Repr

/-- The rational value represented by a `FixedPoint`. -/
def FixedPoint.val (p : FixedPoint) : ℚ :=
  (p.repr : ℚ) / 2 ^ fpPrecision

/-- Modelled from the spec: `FixedPoint * Scalar` followed by `.floor()`, the
floor of the rational product, "rounding ... toward zero" (§3). -/
def FixedPoint.mulFloor (p : FixedPoint) (x : ℕ) : ℕ :=
  p.repr * x / 2 ^ fpPrecision

/-- Embeds `BoundedMatchResult` (`match.rs` lines 202–222). -/
structure BoundedMatchResult where
  quote_mint : Address
  base_mint : Address
  price : FixedPoint
  min_base_amount : Amount
  max_base_amount : Amount
  /-- The direction bit: `true` implies the external party buys the base -/
  direction : Bool
  deriving DecidableEq, Repr

namespace BoundedMatchResult

/-- Embeds `BoundedMatchResult::quote_amount` (`match.rs` lines 226–229):
`floor(price * base_amount)`. -/
def quote_amount (m : BoundedMatchResult) (base_amount : Amount) : Amount :=
  m.price.mulFloor base_amount

/-- Embeds `BoundedMatchResult::external_party_receive` (`match.rs` lines 233–240). -/
def external_party_receive (m : BoundedMatchResult) (base_amount : Amount) :
    Address × Amount :=
  if m.direction then (m.base_mint, base_amount)
  else (m.quote_mint, m.quote_amount base_amount)

/-- Embeds `BoundedMatchResult::external_party_send` (`match.rs` lines 243–250). -/
def external_party_send (m : BoundedMatchResult) (base_amount : Amount) :
    Address × Amount :=
  if m.direction then (m.quote_mint, m.quote_amount base_amount)
  else (m.base_mint, base_amount)

/-- Embeds `BoundedMatchResult::to_external_match_result` (`match.rs` lines 253–261). -/
def to_external_match_result (m : BoundedMatchResult) (base_amount : Amount) :
    ExternalMatchResult :=
  { quote_mint := m.quote_mint
    base_mint := m.base_mint
    quote_amount := m.quote_amount base_amount
    base_amount := base_amount
    direction := m.direction }

end BoundedMatchResult

/-! ## Fees -/

/-- Embeds `FeeTake` (`circuit-types/src/fees.rs`, not among the given sources).
Modelled from the spec: the fee charged on a settlement, split between the
relayer and the protocol; §4.2 / S3 use `fee_take.total` as the sum of the
two components (relayer 1 + protocol 1 leaving 18 of 20). -/
structure FeeTake where
  relayer_fee : Amount
  protocol_fee : Amount
  deriving DecidableEq, Repr

/-- Modelled from the spec: the total fee of a `FeeTake` (S3: receive 20 with
`fee_take = (relayer 1, protocol 1)` nets 18). -/
def FeeTake.total (f : FeeTake) : Amount :=
  f.relayer_fee + f.protocol_fee

/-- Embeds `FeeTakeRate` (`circuit-types/src/fees.rs`, not among the given sources).
Modelled from the spec: a pair of fixed-point fee rates. -/
structure FeeTakeRate where
  relayer_fee_rate : FixedPoint
  protocol_fee_rate : FixedPoint
  deriving DecidableEq, Repr

/-- Modelled from the spec: `FeeTakeRate::compute_fee_take` applies each rate
to the received amount with the system's only permitted rounding,
`floor(rate · amount)` (§3: fixed-point multiplication rounds toward zero). -/
def FeeTakeRate.compute_fee_take (r : FeeTakeRate) (amount : Amount) : FeeTake :=
  { relayer_fee := r.relayer_fee_rate.mulFloor amount
    protocol_fee := r.protocol_fee_rate.mulFloor amount }

/-! ## Share extraction from calldata
(`src/darkpool-client/src/arbitrum/helpers.rs`)

The ABI decoding and postcard deserialization layers are not among the given
sources; the extraction functions are therefore modelled at the level of the
already-decoded statements, whose share vectors are lists of scalars. -/

/-- The errors of `darkpool-client` surfaced by share extraction
(`darkpool-client/src/errors.rs`, variants named in `helpers.rs`). -/
inductive DarkpoolClientError where
  /-- A (de)serialization failure -/
  | Serde (msg : String)
  /-- Variant `BlinderNotFound`: neither party's last share equals the target -/
  | BlinderNotFound
  deriving DecidableEq, Repr

/-- The decoded `ValidMatchSettleStatement` fields used by share extraction. -/
structure ValidMatchSettleStatement (F : Type) where
  party0_modified_shares : List F
  party1_modified_shares : List F
  deriving DecidableEq, Repr

/-- Embeds `parse_shares_from_process_match_settle` (`helpers.rs` lines 88–117),
after ABI decoding: select the party whose last public share (the blinder
share) equals the target, party 0 checked first; otherwise `BlinderNotFound`.
The source's `last().unwrap()` is modelled by `getLast?`, which an empty share
vector cannot match. -/
def parse_shares_from_process_match_settle {F : Type} [DecidableEq F]
    (statement : ValidMatchSettleStatement F) (public_blinder_share : F) :
    Except DarkpoolClientError (List F) :=
  let party_0_shares := statement.party0_modified_shares
  let party_0_blinder_share := party_0_shares.getLast?
  let party_1_shares := statement.party1_modified_shares
  let party_1_blinder_share := party_1_shares.getLast?
  if party_0_blinder_share = some public_blinder_share then
    .ok party_0_shares
  else if party_1_blinder_share = some public_blinder_share then
    .ok party_1_shares
  else
    .error .BlinderNotFound

/-- The decoded `ValidRelayerFeeSettlementStatement` fields used by share
extraction. -/
structure ValidRelayerFeeSettlementStatement (F : Type) where
  sender_updated_public_shares : List F
  recipient_updated_public_shares : List F
  deriving DecidableEq, Repr

/-- Embeds `parse_shares_from_settle_online_relayer_fee` (`helpers.rs` lines
200–231), after ABI decoding: identical selection logic over the sender and
recipient share vectors. -/
def parse_shares_from_settle_online_relayer_fee {F : Type} [DecidableEq F]
    (statement : ValidRelayerFeeSettlementStatement F) (public_blinder_share : F) :
    Except DarkpoolClientError (List F) :=
  let sender_shares := statement.sender_updated_public_shares
  let sender_blinder_share := sender_shares.getLast?
  let recipient_shares := statement.recipient_updated_public_shares
  let recipient_blinder_share := recipient_shares.getLast?
  if sender_blinder_share = some public_blinder_share then
    .ok sender_shares
  else if recipient_blinder_share = some public_blinder_share then
    .ok recipient_shares
  else
    .error .BlinderNotFound

/-! ## Malleable match application -/

/-- Modelled from the spec: `util::matching_engine::apply_match_to_shares`
is not among the given sources.  Per §4.2: "Given
`(indices, fee_take, match_result, side)`, mutate the share vector in place:
decrement the send balance slot by the sent amount, increment the receive
balance slot by `received − fee_take.total`, and decrement the matched-order
slot by `base_amount`.  The mutation operates on blinded shares directly and
is therefore linear in the field."  Sent and received amounts are resolved by
`send_mint_amount` / `receive_mint_amount`; the updates are applied
sequentially, as in-place mutation would. -/
def apply_match_to_shares {F : Type} [AddCommGroup F] [NatCast F]
    (shares : List F) (indices : OrderSettlementIndices) (fee_take : FeeTake)
    (match_res : MatchResult) (side : OrderSide) : List F :=
  let send_amount := (match_res.send_mint_amount side).2
  let recv_amount := (match_res.receive_mint_amount side).2
  let net_recv := recv_amount - fee_take.total
  let s1 := shares.set indices.balance_send
    (shares.getD indices.balance_send 0 - (send_amount : F))
  let s2 := s1.set indices.balance_receive
    (s1.getD indices.balance_receive 0 + (net_recv : F))
  s2.set indices.order
    (s2.getD indices.order 0 - (match_res.base_amount : F))

/-- The decoded `ValidMalleableMatchSettleAtomicStatement` fields used by
share extraction (`contract_types`, converted to circuit types by
`to_circuit_bounded_match_result` / `to_circuit_fee_rates`). -/
structure ValidMalleableMatchSettleAtomicStatement (F : Type) where
  bounded_match_result : BoundedMatchResult
  internal_fee_rates : FeeTakeRate
  external_fee_rates : FeeTakeRate
  internal_party_public_shares : List F
  deriving DecidableEq, Repr

/-- Embeds `apply_malleable_match_result_to_wallet_share` (`helpers.rs` lines
271–293): derive the external match result from the bounded match at the
chosen base amount, compute the internal party's fees on the external party's
send amount, and apply the match to the shares on the internal party's side. -/
def apply_malleable_match_result_to_wallet_share {F : Type} [AddCommGroup F] [NatCast F]
    (wallet_share : List F) (base_amount : Amount) (indices : OrderSettlementIndices)
    (statement : ValidMalleableMatchSettleAtomicStatement F) : List F :=
  let bounded_match := statement.bounded_match_result
  let external_match_res := bounded_match.to_external_match_result base_amount
  let match_res := external_match_res.to_match_result
  let recv_amount := external_match_res.external_party_send.2
  let fees := statement.internal_fee_rates
  let fee_take := fees.compute_fee_take recv_amount
  let side := external_match_res.internal_party_side
  apply_match_to_shares wallet_share indices fee_take match_res side

/-- Embeds `parse_shares_from_process_malleable_atomic_match_settle` (`helpers.rs`
lines 148–171), after ABI decoding: take the statement's internal-party
(pre-mutation) public shares and apply the malleable match at the call's base
amount, with the settlement indices taken from the embedded validity-proof
payload (`internal_party_match_payload`). -/
def parse_shares_from_process_malleable_atomic_match_settle {F : Type}
    [AddCommGroup F] [NatCast F]
    (statement : ValidMalleableMatchSettleAtomicStatement F)
    (payload_indices : OrderSettlementIndices) (base_amount : Amount) : List F :=
  apply_malleable_match_result_to_wallet_share
    statement.internal_party_public_shares base_amount payload_indices statement

/-! ## The pay-offline-fee task
(`src/workers/task-driver/src/tasks/pay_offline_fee.rs`) -/

/-- Embeds `PayOfflineFeeTaskState` (`pay_offline_fee.rs` lines 53–66). -/
inductive PayOfflineFeeTaskState where
  | Pending
  | ProvingPayment
  | SubmittingPayment
  | FindingOpening
  | UpdatingValidityProofs
  | Completed
  deriving DecidableEq, Repr

namespace PayOfflineFeeTaskState

/-- Embeds `TaskState::commit_point` for `PayOfflineFeeTaskState`
(`pay_offline_fee.rs` lines 69–71). -/
def commit_point : PayOfflineFeeTaskState := .SubmittingPayment

/-- Embeds `TaskState::completed` for `PayOfflineFeeTaskState`
(`pay_offline_fee.rs` lines 73–75). -/
def completed : PayOfflineFeeTaskState → Bool
  | .Completed => true
  | _ => false

/-- The position of a state along the task's state sequence. -/
def toIdx : PayOfflineFeeTaskState → ℕ
  | .Pending => 0
  | .ProvingPayment => 1
  | .SubmittingPayment => 2
  | .FindingOpening => 3
  | .UpdatingValidityProofs => 4
  | .Completed => 5

end PayOfflineFeeTaskState

/-- Embeds `PayOfflineFeeTaskError` (`pay_offline_fee.rs` lines 103–112).  Note the
variant set: there is no dedicated invalid-fee-amount variant; that failure is
surfaced as a `State` error carrying `ERR_INVALID_FEE_AMOUNT`. -/
inductive PayOfflineFeeTaskError where
  | Darkpool (msg : String)
  | ProofGeneration (msg : String)
  | State (msg : String)
  | UpdateValidityProofs (msg : String)
  deriving DecidableEq, Repr

/-- Embeds `TaskError::retryable` for `PayOfflineFeeTaskError` (`pay_offline_fee.rs`
lines 115–123): every variant is retryable. -/
def PayOfflineFeeTaskError.retryable : PayOfflineFeeTaskError → Bool
  | .Darkpool _ | .State _ | .ProofGeneration _ | .UpdateValidityProofs _ => true

/-- Embeds `ERR_INVALID_FEE_AMOUNT` (`pay_offline_fee.rs` line 45). -/
def ERR_INVALID_FEE_AMOUNT : String := "Fee amount in descriptor does not equal paid amount"

/-- Embeds `ERR_WALLET_MISSING` (`tasks/mod.rs`, referenced at `pay_offline_fee.rs`
line 188). -/
def ERR_WALLET_MISSING : String := "wallet not found in state"

/-- Embeds `ERR_BALANCE_MISSING` (`tasks/mod.rs`, referenced at `pay_offline_fee.rs`
line 336). -/
def ERR_BALANCE_MISSING : String := "balance not found in wallet"

/-- The effect of one `step()` call (`pay_offline_fee.rs` lines 219–246),
abstracting each state's awaited action (`generate_proof`, `submit_payment`,
`find_merkle_opening`, `update_validity_proofs`) as an oracle `act` giving the
action's outcome in that state.  On success the function returns the next
task state; on failure the `?` operator propagates the error before
`self.task_state` is reassigned.  `step()` in `Completed` panics in the
source and is outside this function's domain (`none`). -/
def payOfflineFeeStep (act : PayOfflineFeeTaskState → Except PayOfflineFeeTaskError Unit) :
    PayOfflineFeeTaskState → Option (Except PayOfflineFeeTaskError PayOfflineFeeTaskState)
  | .Pending => some (.ok .ProvingPayment)
  | .ProvingPayment =>
      some (act .ProvingPayment |>.map fun _ => .SubmittingPayment)
  | .SubmittingPayment =>
      some (act .SubmittingPayment |>.map fun _ => .FindingOpening)
  | .FindingOpening =>
      some (act .FindingOpening |>.map fun _ => .UpdatingValidityProofs)
  | .UpdatingValidityProofs =>
      some (act .UpdatingValidityProofs |>.map fun _ => .Completed)
  | .Completed => none

/-- The driver-visible task state after a `step()` call from a non-`Completed`
state: the returned next state on success, the unchanged current state on
error (the early return of `?` leaves `self.task_state` untouched). -/
def payOfflineFeeStateAfterStep
    (act : PayOfflineFeeTaskState → Except PayOfflineFeeTaskError Unit)
    (s : PayOfflineFeeTaskState) : PayOfflineFeeTaskState :=
  match payOfflineFeeStep act s with
  | some (.ok s') => s'
  | some (.error _) => s
  | none => s

/-- A balance of the wallet, restricted to the fields the pay-offline-fee
task reads.  The note-derivation fields are modelled from the spec: the note
amount is the fee component due on the balance for the chosen fee type
(`Balance::create_protocol_note` / `create_relayer_note` are not among the
given sources). -/
structure Balance where
  mint : ℕ
  amount : Amount
  relayer_fee_balance : Amount
  protocol_fee_balance : Amount
  deriving DecidableEq, Repr

/-- A `Note` (`circuit-types/src/note.rs`), restricted to the fields the
task construction checks. -/
structure Note where
  mint : ℕ
  amount : Amount
  deriving DecidableEq, Repr

/-- The wallet as seen by the pay-offline-fee task: its balances keyed by
mint. -/
structure TaskWallet where
  balances : List Balance
  deriving DecidableEq, Repr

/-- Embeds `PayOfflineFeeTaskDescriptor` (`common::types::tasks`), restricted to the
fields `PayOfflineFeeTask::new` reads. -/
structure PayOfflineFeeTaskDescriptor where
  is_protocol_fee : Bool
  mint : ℕ
  amount : Amount
  deriving DecidableEq, Repr

/-- Embeds `PayOfflineFeeTask::get_wallet_and_note` (`pay_offline_fee.rs` lines
329–346), returning the note only (the reblinded new wallet does not bear on
the checked property): find the balance for the descriptor's mint, else a
`State` error; derive the note from the balance's fee component for the
chosen fee type (note derivation modelled from the spec, see `Balance`). -/
def getWalletAndNote (descriptor : PayOfflineFeeTaskDescriptor) (old_wallet : TaskWallet) :
    Except PayOfflineFeeTaskError Note :=
  match old_wallet.balances.find? (fun b => b.mint = descriptor.mint) with
  | none => .error (.State ERR_BALANCE_MISSING)
  | some balance =>
      .ok { mint := balance.mint
            amount := if descriptor.is_protocol_fee then balance.protocol_fee_balance
                      else balance.relayer_fee_balance }

/-- Embeds `PayOfflineFeeTask::new` (`pay_offline_fee.rs` lines 183–210), returning
the constructed note on success: fetch the wallet (absent wallets are a
`State` error), derive the note, and reject descriptors whose amount differs
from the note amount with a `State` error carrying `ERR_INVALID_FEE_AMOUNT`.
Construction enqueues no proof job: the only enqueue happens in
`generate_proof` during the `ProvingPayment` step. -/
def payOfflineFeeNew (descriptor : PayOfflineFeeTaskDescriptor)
    (wallet : Option TaskWallet) : Except PayOfflineFeeTaskError Note :=
  match wallet with
  | none => .error (.State ERR_WALLET_MISSING)
  | some old_wallet =>
      match getWalletAndNote descriptor old_wallet with
      | .error e => .error e
      | .ok note =>
          if descriptor.amount ≠ note.amount then
            .error (.State ERR_INVALID_FEE_AMOUNT)
          else
            .ok note

/-! ## Concrete instances for witnesses and counterexamples -/

/-- A toy hash-chain step over `ZMod 11`, used by the C1 witness. -/
def HW1 : ZMod 11 → ZMod 11 := fun x => x * x + 1

/-- A concrete wallet over `ZMod 11`, used by the C1 witness. -/
def walletW1 : Wallet (ZMod 11) :=
  { wallet_id := 1
    contents := [6, 7, 8]
    managing_cluster := 2
    blinder := 9
    private_shares := { shares := [1, 2, 3], blinder := 4 }
    blinded_public_shares := { shares := [5, 5, 5], blinder := 5 }
    merkle_proof := some 3 }

/-- A toy hash-chain step over `ZMod 13`, used by the C2 witness. -/
def HW2 : ZMod 13 → ZMod 13 := fun x => x + 7

/-- A concrete wallet over `ZMod 13` whose shares are consistent
(`check_wallet_shares` holds), used by the C2 witness. -/
def walletW2 : Wallet (ZMod 13) :=
  { wallet_id := 2
    contents := [6, 7, 8]
    managing_cluster := 2
    blinder := 9
    private_shares := { shares := [1, 2, 3], blinder := 4 }
    blinded_public_shares := { shares := [5, 5, 5], blinder := 5 }
    merkle_proof := some 3 }

/-- The toy hash-chain step over `ZMod 11` of the S2 fixed-point scenario,
used by the C9 counterexample. -/
def HC9 : ZMod 11 → ZMod 11 := fun x => x + 1

/-- The wallet of the S2 fixed-point scenario: private shares `[1,2,3,4]`
with blinder share `5`, used by the C9 counterexample. -/
def walletC9 : Wallet (ZMod 11) :=
  { wallet_id := 9
    contents := [6, 7, 8, 9]
    managing_cluster := 0
    blinder := 0
    private_shares := { shares := [1, 2, 3, 4], blinder := 5 }
    blinded_public_shares := { shares := [0, 0, 0, 0], blinder := 0 }
    merkle_proof := none }

/-- The S5 scenario descriptor: a protocol-fee payment of 99 against mint 7,
used by the C7 counterexample and witness. -/
def descC7 : PayOfflineFeeTaskDescriptor :=
  { is_protocol_fee := true, mint := 7, amount := 99 }

/-- The S5 scenario wallet: a single balance on mint 7 with a protocol fee of
100 due, used by the C7 counterexample and witness. -/
def walletC7 : TaskWallet :=
  { balances := [{ mint := 7, amount := 250, relayer_fee_balance := 3,
                   protocol_fee_balance := 100 }] }

/-- The note derived from `walletC7` for a protocol-fee payment on mint 7. -/
def noteC7 : Note := { mint := 7, amount := 100 }

/-! ## Helper lemmas -/

/-- A hash chain has as many outputs as its requested length. -/
theorem length_evaluate_hash_chain {F : Type} (H : F → F) (seed : F) (length : ℕ) :
    (evaluate_hash_chain H seed length).length = length := by
  simp [evaluate_hash_chain]

/-- Additive reconstruction cancels share splitting: adding the private
shares back onto `w − p` recovers `w`. -/
theorem zipWith_add_sub_cancel {F : Type} [AddCommGroup F] (w : List F) :
    ∀ p : List F, p.length = w.length →
      List.zipWith (· + ·) p (List.zipWith (· - ·) w p) = w := by
  induction w with
  | nil => intro p h; simp at h; simp [h]
  | cons a as ih =>
      intro p h
      cases p with
      | nil => simp at h
      | cons b bs =>
          simp only [List.zipWith_cons_cons, List.cons.injEq]
          exact ⟨by abel, ih bs (by simpa using h)⟩

/-- The serialization of the freshly sampled private shares in
`reblind_wallet`: the bulk hash chain with the new private blinder share in
the final slot. -/
theorem reblind_private_to_scalars {F : Type} [AddCommGroup F] (H : F → F) (w : Wallet F) :
    (w.reblind_wallet H).private_shares.to_scalars
      = evaluate_hash_chain H
          (w.private_shares.to_scalars.getD (w.private_shares.to_scalars.length - 2) 0)
          (w.private_shares.to_scalars.length - 1)
        ++ [(w.new_blinder_and_private_share H).2] := by
  simp [Wallet.reblind_wallet, WalletShare.from_scalars, WalletShare.to_scalars,
    create_wallet_shares_from_private, List.dropLast_concat, List.getLast?_concat]

/-! ## Claim theorems -/

/-- Claim C1: for every wallet whose private-share vector has `n` slots,
`reblind_wallet` derives the next share set exactly as specified: the new
blinder and new private blinder share are the first and second outputs of the
hash chain of length 2 seeded with the current private blinder share; the
first `n − 1` new private shares are the hash chain of length `n − 1` seeded
with the second-to-last current private share, with the new private blinder
share appended as the last slot; and the new public shares are the cleartext
wallet minus the new private shares with the blinder re-injected in the final
slot. -/
theorem reblind_wallet_spec {F : Type} [AddCommGroup F] (H : F → F) (w : Wallet F)
    (h : w.private_shares.shares ≠ []) :
    (w.reblind_wallet H).blinder
        = (evaluate_hash_chain H w.private_blinder_share 2).getD 0 0 ∧
    (w.reblind_wallet H).private_shares.blinder
        = (evaluate_hash_chain H w.private_blinder_share 2).getD 1 0 ∧
    (w.reblind_wallet H).private_shares.to_scalars
        = evaluate_hash_chain H
            (w.private_shares.to_scalars.getD (w.private_shares.to_scalars.length - 2) 0)
            (w.private_shares.to_scalars.length - 1)
          ++ [(evaluate_hash_chain H w.private_blinder_share 2).getD 1 0] ∧
    (w.reblind_wallet H).blinded_public_shares.shares
        = List.zipWith (· - ·) w.contents (w.reblind_wallet H).private_shares.shares ∧
    (w.reblind_wallet H).blinded_public_shares.blinder
        = (w.reblind_wallet H).blinder - (w.reblind_wallet H).private_shares.blinder := by
  refine ⟨rfl, ?_, ?_, ?_, ?_⟩
  · simp [Wallet.reblind_wallet, WalletShare.from_scalars, List.getLast?_concat,
      Wallet.new_blinder_and_private_share, create_wallet_shares_from_private]
  · simpa [Wallet.new_blinder_and_private_share] using reblind_private_to_scalars H w
  · simp [Wallet.reblind_wallet, WalletShare.from_scalars,
      create_wallet_shares_from_private, Wallet.toCircuit, List.dropLast_concat]
  · simp [Wallet.reblind_wallet, WalletShare.from_scalars, List.getLast?_concat,
      create_wallet_shares_from_private]

/-- Witness for C1 at a concrete wallet over `ZMod 11` with hash step
`x ↦ x + 1`. -/
theorem reblind_wallet_spec_witness :
    (walletW1.reblind_wallet HW1).blinder
        = (evaluate_hash_chain HW1 walletW1.private_blinder_share 2).getD 0 0 ∧
    (walletW1.reblind_wallet HW1).private_shares.blinder
        = (evaluate_hash_chain HW1 walletW1.private_blinder_share 2).getD 1 0 ∧
    (walletW1.reblind_wallet HW1).private_shares.to_scalars
        = evaluate_hash_chain HW1
            (walletW1.private_shares.to_scalars.getD
              (walletW1.private_shares.to_scalars.length - 2) 0)
            (walletW1.private_shares.to_scalars.length - 1)
          ++ [(evaluate_hash_chain HW1 walletW1.private_blinder_share 2).getD 1 0] ∧
    (walletW1.reblind_wallet HW1).blinded_public_shares.shares
        = List.zipWith (· - ·) walletW1.contents
            (walletW1.reblind_wallet HW1).private_shares.shares ∧
    (walletW1.reblind_wallet HW1).blinded_public_shares.blinder
        = (walletW1.reblind_wallet HW1).blinder
          - (walletW1.reblind_wallet HW1).private_shares.blinder :=
  reblind_wallet_spec HW1 walletW1 (by decide)

/-- Claim C2: for every wallet satisfying the share-reconstruction invariant,
`reblind_wallet` changes only the `private_shares`, `blinded_public_shares`,
`blinder` and `merkle_proof` fields (the Merkle proof is invalidated); the
cleartext wallet contents reconstructed from the new share pair equal the
contents before the reblind, so `check_wallet_shares` still holds
afterwards. -/
theorem reblind_wallet_frame {F : Type} [AddCommGroup F] [DecidableEq F]
    (H : F → F) (w : Wallet F)
    (hne : w.private_shares.shares ≠ [])
    (hlen : w.contents.length = w.private_shares.shares.length)
    (hcheck : w.check_wallet_shares) :
    (w.reblind_wallet H).wallet_id = w.wallet_id ∧
    (w.reblind_wallet H).contents = w.contents ∧
    (w.reblind_wallet H).managing_cluster = w.managing_cluster ∧
    (w.reblind_wallet H).merkle_proof = none ∧
    (wallet_from_blinded_shares (w.reblind_wallet H).private_shares
        (w.reblind_wallet H).blinded_public_shares).contents
      = (wallet_from_blinded_shares w.private_shares w.blinded_public_shares).contents ∧
    (w.reblind_wallet H).check_wallet_shares := by
  have hchainlen :
      (w.reblind_wallet H).private_shares.shares.length = w.contents.length := by
    simp [Wallet.reblind_wallet, WalletShare.from_scalars,
      create_wallet_shares_from_private, List.dropLast_concat,
      length_evaluate_hash_chain, WalletShare.to_scalars, hlen]
  have hrecon :
      (wallet_from_blinded_shares (w.reblind_wallet H).private_shares
          (w.reblind_wallet H).blinded_public_shares).contents = w.contents := by
    have hpub : (w.reblind_wallet H).blinded_public_shares.shares
        = List.zipWith (· - ·) w.contents (w.reblind_wallet H).private_shares.shares := by
      simp [Wallet.reblind_wallet, create_wallet_shares_from_private, Wallet.toCircuit]
    simp only [wallet_from_blinded_shares, hpub]
    exact zipWith_add_sub_cancel w.contents _ hchainlen
  have holdrecon :
      (wallet_from_blinded_shares w.private_shares w.blinded_public_shares).contents
        = w.contents := by
    have := congrArg CircuitWallet.contents hcheck.symm
    simpa [Wallet.toCircuit] using this
  refine ⟨rfl, rfl, rfl, rfl, hrecon.trans holdrecon.symm, ?_⟩
  have hblinder :
      (w.reblind_wallet H).private_shares.blinder
        + (w.reblind_wallet H).blinded_public_shares.blinder
      = (w.reblind_wallet H).blinder := by
    simp only [Wallet.reblind_wallet, create_wallet_shares_from_private]
    abel
  unfold Wallet.check_wallet_shares
  ext1
  · exact hrecon.symm
  · exact hblinder.symm

/-- Witness for C2 at a concrete consistent wallet over `ZMod 13` with hash
step `x ↦ x + 7`. -/
theorem reblind_wallet_frame_witness :
    (walletW2.reblind_wallet HW2).wallet_id = walletW2.wallet_id ∧
    (walletW2.reblind_wallet HW2).contents = walletW2.contents ∧
    (walletW2.reblind_wallet HW2).managing_cluster = walletW2.managing_cluster ∧
    (walletW2.reblind_wallet HW2).merkle_proof = none ∧
    (wallet_from_blinded_shares (walletW2.reblind_wallet HW2).private_shares
        (walletW2.reblind_wallet HW2).blinded_public_shares).contents
      = (wallet_from_blinded_shares walletW2.private_shares
          walletW2.blinded_public_shares).contents ∧
    (walletW2.reblind_wallet HW2).check_wallet_shares :=
  reblind_wallet_frame HW2 walletW2 (by decide) (by decide) (by decide)

/-- Claim C10: `next_public_blinder()` called before `reblind_wallet()`
returns exactly the wallet's public blinder share (`public_blinder()`) after
the reblind; it predicts the post-reblind public blinder without mutating the
wallet. -/
theorem next_public_blinder_predicts {F : Type} [AddCommGroup F]
    (H : F → F) (w : Wallet F) :
    w.next_public_blinder H = (w.reblind_wallet H).public_blinder := by
  simp [Wallet.next_public_blinder, Wallet.public_blinder, Wallet.reblind_wallet,
    WalletShare.from_scalars, List.getLast?_concat, create_wallet_shares_from_private]

/-- Counterexample for C9: over the toy field `ZMod 11` with hash step
`x ↦ x + 1`, the wallet with private shares `[1, 2, 3, 4]` and blinder share
`5` does not reblind to private shares `[H²(3), H³(3), H⁴(3), H(5)]` — the
bulk hash chain is seeded at the second-to-last slot `4` starting from
`H(4)`, and has length 4, with the private blinder share `H²(5)` appended —
under either reading of the claimed list (full serialization or non-blinder
part). -/
theorem reblind_toy_example_cex :
    ((walletC9.reblind_wallet HC9).private_shares.to_scalars
        ≠ [HC9^[2] 3, HC9^[3] 3, HC9^[4] 3, HC9 5]) ∧
    ((walletC9.reblind_wallet HC9).private_shares.shares
        ≠ [HC9^[2] 3, HC9^[3] 3, HC9^[4] 3, HC9 5]) := by
  constructor <;> decide

/-- Claim C9 as amended: over a toy field, the wallet whose private shares
are `[1, 2, 3, 4]` with blinder share `5` reblinds to the private share
vector `[H(4), H²(4), H³(4), H⁴(4)]` with private blinder share `H²(5)`
(serialized `[H(4), H²(4), H³(4), H⁴(4), H²(5)]`), new blinder `H(5)`, and
new public shares equal to the cleartext wallet minus the new private shares
with the blinder re-injected in the final slot. -/
theorem reblind_toy_example_spec (F : Type) [CommRing F] (H : F → F)
    (id : ℕ) (c : List F) (mc b : F) (q : WalletShare F) (mp : Option ℕ) :
    let w : Wallet F :=
      { wallet_id := id, contents := c, managing_cluster := mc, blinder := b
        private_shares := { shares := [1, 2, 3, 4], blinder := 5 }
        blinded_public_shares := q, merkle_proof := mp }
    ((w.reblind_wallet H).private_shares.to_scalars
        = [H^[1] 4, H^[2] 4, H^[3] 4, H^[4] 4, H^[2] 5]) ∧
    (w.reblind_wallet H).blinder = H^[1] 5 ∧
    (w.reblind_wallet H).blinded_public_shares.shares
        = List.zipWith (· - ·) c [H^[1] 4, H^[2] 4, H^[3] 4, H^[4] 4] ∧
    (w.reblind_wallet H).blinded_public_shares.blinder
        = H^[1] 5 - H^[2] 5 := by
  refine ⟨?_, rfl, ?_, rfl⟩
  · rfl
  · rfl

/-- Claim C3: for every `BoundedMatchResult` and every base amount `b` with
`min_base_amount ≤ b ≤ max_base_amount`, `quote_amount(b)` equals
`floor(price · b)` computed exactly over the rationals, and `quote_amount`
is monotone non-decreasing in `b` on that range. -/
theorem quote_amount_floor_mono (m : BoundedMatchResult) (b b' : Amount)
    (hmin : m.min_base_amount ≤ b) (hmax : b ≤ m.max_base_amount)
    (hle : b ≤ b') (hmax' : b' ≤ m.max_base_amount) :
    ((m.quote_amount b : ℤ) = ⌊m.price.val * (b : ℚ)⌋) ∧
    m.quote_amount b ≤ m.quote_amount b' := by
  constructor
  · have hval : m.price.val * (b : ℚ)
        = ((m.price.repr * b : ℕ) : ℚ) / ((2 ^ fpPrecision : ℕ) : ℚ) := by
      unfold FixedPoint.val
      push_cast
      ring
    rw [hval, ← Int.natCast_floor_eq_floor (by positivity), Nat.floor_div_eq_div]
    rfl
  · exact Nat.div_le_div_right (Nat.mul_le_mul_left _ hle)

/-- Witness for C3 at a concrete bounded match with price `5/2` (numerator
`5 · 2⁶²`) and base amounts 10 and 11 inside the bounds. -/
theorem quote_amount_floor_mono_witness :
    ((BoundedMatchResult.quote_amount
        { quote_mint := 1, base_mint := 2, price := { repr := 5 * 2 ^ 62 }
          min_base_amount := 10, max_base_amount := 100, direction := false } 10 : ℤ)
      = ⌊(FixedPoint.val { repr := 5 * 2 ^ 62 }) * ((10 : ℕ) : ℚ)⌋) ∧
    BoundedMatchResult.quote_amount
        { quote_mint := 1, base_mint := 2, price := { repr := 5 * 2 ^ 62 }
          min_base_amount := 10, max_base_amount := 100, direction := false } 10
      ≤ BoundedMatchResult.quote_amount
        { quote_mint := 1, base_mint := 2, price := { repr := 5 * 2 ^ 62 }
          min_base_amount := 10, max_base_amount := 100, direction := false } 11 :=
  quote_amount_floor_mono _ 10 11 (by decide) (by decide) (by decide) (by decide)

/-- Counterexample for C8: the endpoint returned by `send_mint_amount` and
`receive_mint_amount` does not depend on the match's direction bit at all —
holding the side fixed at `Buy` and flipping `direction` returns the same
endpoint both times, on a match whose quote and base endpoints differ, so
the claimed `direction ⊕ side` crossing (which would swap them) is refuted. -/
theorem send_mint_amount_direction_cex :
    (MatchResult.send_mint_amount
        { quote_mint := 1, base_mint := 2, quote_amount := 10, base_amount := 20
          direction := true, min_amount_order_index := false } .Buy
      = MatchResult.send_mint_amount
        { quote_mint := 1, base_mint := 2, quote_amount := 10, base_amount := 20
          direction := false, min_amount_order_index := false } .Buy) ∧
    (MatchResult.receive_mint_amount
        { quote_mint := 1, base_mint := 2, quote_amount := 10, base_amount := 20
          direction := true, min_amount_order_index := false } .Buy
      = MatchResult.receive_mint_amount
        { quote_mint := 1, base_mint := 2, quote_amount := 10, base_amount := 20
          direction := false, min_amount_order_index := false } .Buy) ∧
    MatchResult.send_mint_amount
        { quote_mint := 1, base_mint := 2, quote_amount := 10, base_amount := 20
          direction := true, min_amount_order_index := false } .Buy
      ≠ ((2 : Address), (20 : Amount)) := by
  refine ⟨rfl, rfl, by decide⟩

/-- Claim C8 as amended: the `(mint, amount)` endpoint returned by
`send_mint_amount(side)` and `receive_mint_amount(side)` is selected by the
side alone and is independent of the match's direction bit — `send` returns
the quote endpoint for `Buy` and the base endpoint for `Sell`, `receive` the
opposite, so `send(side)` always equals `receive` of the opposite side. -/
theorem send_receive_side_spec (m : MatchResult) (d : Bool) (side : OrderSide) :
    MatchResult.send_mint_amount { m with direction := d } side
        = m.send_mint_amount side ∧
    MatchResult.receive_mint_amount { m with direction := d } side
        = m.receive_mint_amount side ∧
    m.send_mint_amount .Buy = (m.quote_mint, m.quote_amount) ∧
    m.send_mint_amount .Sell = (m.base_mint, m.base_amount) ∧
    m.send_mint_amount side
        = m.receive_mint_amount (match side with | .Buy => .Sell | .Sell => .Buy) := by
  cases side <;>
    simp [MatchResult.send_mint_amount, MatchResult.receive_mint_amount]

/-- Claim C4: for every `processMatchSettle` calldata (and analogously
`settleOnlineRelayerFee` calldata) and caller-supplied target public blinder
share, share extraction returns the modified shares of the party whose last
public share equals the target, and returns the `BlinderNotFound` error if
neither party's last share equals the target. -/
theorem parse_shares_blinder_selection {F : Type} [DecidableEq F]
    (st : ValidMatchSettleStatement F) (stf : ValidRelayerFeeSettlementStatement F) (t : F)
    (h0 : st.party0_modified_shares ≠ []) (h1 : st.party1_modified_shares ≠ [])
    (hs : stf.sender_updated_public_shares ≠ [])
    (hr : stf.recipient_updated_public_shares ≠ []) :
    (st.party0_modified_shares.getLast h0 = t →
      parse_shares_from_process_match_settle st t = .ok st.party0_modified_shares) ∧
    (st.party0_modified_shares.getLast h0 ≠ t →
      st.party1_modified_shares.getLast h1 = t →
      parse_shares_from_process_match_settle st t = .ok st.party1_modified_shares) ∧
    (st.party0_modified_shares.getLast h0 ≠ t →
      st.party1_modified_shares.getLast h1 ≠ t →
      parse_shares_from_process_match_settle st t = .error .BlinderNotFound) ∧
    (stf.sender_updated_public_shares.getLast hs = t →
      parse_shares_from_settle_online_relayer_fee stf t
        = .ok stf.sender_updated_public_shares) ∧
    (stf.sender_updated_public_shares.getLast hs ≠ t →
      stf.recipient_updated_public_shares.getLast hr = t →
      parse_shares_from_settle_online_relayer_fee stf t
        = .ok stf.recipient_updated_public_shares) ∧
    (stf.sender_updated_public_shares.getLast hs ≠ t →
      stf.recipient_updated_public_shares.getLast hr ≠ t →
      parse_shares_from_settle_online_relayer_fee stf t = .error .BlinderNotFound) := by
  refine ⟨?_, ?_, ?_, ?_, ?_, ?_⟩
  · intro he
    simp [parse_shares_from_process_match_settle, List.getLast?_eq_getLast _ h0, he]
  · intro hne he
    simp [parse_shares_from_process_match_settle, List.getLast?_eq_getLast _ h0,
      List.getLast?_eq_getLast _ h1, hne, he]
  · intro hne hne'
    simp [parse_shares_from_process_match_settle, List.getLast?_eq_getLast _ h0,
      List.getLast?_eq_getLast _ h1, hne, hne']
  · intro he
    simp [parse_shares_from_settle_online_relayer_fee, List.getLast?_eq_getLast _ hs, he]
  · intro hne he
    simp [parse_shares_from_settle_online_relayer_fee, List.getLast?_eq_getLast _ hs,
      List.getLast?_eq_getLast _ hr, hne, he]
  · intro hne hne'
    simp [parse_shares_from_settle_online_relayer_fee, List.getLast?_eq_getLast _ hs,
      List.getLast?_eq_getLast _ hr, hne, hne']

/-- Witness for C4 at concrete statements over `ZMod 5`: party 1 and the
recipient carry the target blinder share `4`. -/
theorem parse_shares_blinder_selection_witness :
    (([(1 : ZMod 5), 2].getLast (by decide) = 4 →
      parse_shares_from_process_match_settle
        { party0_modified_shares := [(1 : ZMod 5), 2], party1_modified_shares := [3, 4] } 4
        = .ok [(1 : ZMod 5), 2]) ∧
    ([(1 : ZMod 5), 2].getLast (by decide) ≠ 4 →
      [(3 : ZMod 5), 4].getLast (by decide) = 4 →
      parse_shares_from_process_match_settle
        { party0_modified_shares := [(1 : ZMod 5), 2], party1_modified_shares := [3, 4] } 4
        = .ok [(3 : ZMod 5), 4]) ∧
    ([(1 : ZMod 5), 2].getLast (by decide) ≠ 4 →
      [(3 : ZMod 5), 4].getLast (by decide) ≠ 4 →
      parse_shares_from_process_match_settle
        { party0_modified_shares := [(1 : ZMod 5), 2], party1_modified_shares := [3, 4] } 4
        = .error .BlinderNotFound) ∧
    ([(1 : ZMod 5), 2].getLast (by decide) = 4 →
      parse_shares_from_settle_online_relayer_fee
        { sender_updated_public_shares := [(1 : ZMod 5), 2]
          recipient_updated_public_shares := [3, 4] } 4
        = .ok [(1 : ZMod 5), 2]) ∧
    ([(1 : ZMod 5), 2].getLast (by decide) ≠ 4 →
      [(3 : ZMod 5), 4].getLast (by decide) = 4 →
      parse_shares_from_settle_online_relayer_fee
        { sender_updated_public_shares := [(1 : ZMod 5), 2]
          recipient_updated_public_shares := [3, 4] } 4
        = .ok [(3 : ZMod 5), 4]) ∧
    ([(1 : ZMod 5), 2].getLast (by decide) ≠ 4 →
      [(3 : ZMod 5), 4].getLast (by decide) ≠ 4 →
      parse_shares_from_settle_online_relayer_fee
        { sender_updated_public_shares := [(1 : ZMod 5), 2]
          recipient_updated_public_shares := [3, 4] } 4
        = .error .BlinderNotFound)) :=
  parse_shares_blinder_selection
    { party0_modified_shares := [(1 : ZMod 5), 2], party1_modified_shares := [3, 4] }
    { sender_updated_public_shares := [(1 : ZMod 5), 2]
      recipient_updated_public_shares := [3, 4] }
    4 (by decide) (by decide) (by decide) (by decide)

/-- Claim C5: for every `processMalleableAtomicMatchSettle` calldata, share
extraction returns the statement's internal-party (pre-mutation) public
shares mutated by applying the match: the match result is derived from the
statement's bounded match result at the call's base amount, the settlement
indices come from the embedded validity-proof payload, the fee rates are the
statement's internal fee rates, and the fee take is computed on the external
party's send amount — which equals the internal party's receive amount. -/
theorem parse_malleable_shares_spec {F : Type} [AddCommGroup F] [NatCast F]
    (st : ValidMalleableMatchSettleAtomicStatement F)
    (payload_indices : OrderSettlementIndices) (base_amount : Amount) :
    parse_shares_from_process_malleable_atomic_match_settle st payload_indices base_amount
      = apply_match_to_shares st.internal_party_public_shares payload_indices
          (st.internal_fee_rates.compute_fee_take
            ((st.bounded_match_result.to_external_match_result base_amount).external_party_send).2)
          ((st.bounded_match_result.to_external_match_result base_amount).to_match_result)
          ((st.bounded_match_result.to_external_match_result base_amount).internal_party_side) ∧
    ((st.bounded_match_result.to_external_match_result base_amount).external_party_send).2
      = (((st.bounded_match_result.to_external_match_result base_amount).to_match_result).receive_mint_amount
          ((st.bounded_match_result.to_external_match_result base_amount).internal_party_side)).2 := by
  refine ⟨rfl, ?_⟩
  cases hd : st.bounded_match_result.direction <;>
    simp [BoundedMatchResult.to_external_match_result,
      ExternalMatchResult.external_party_send, ExternalMatchResult.internal_party_side,
      ExternalMatchResult.to_match_result, MatchResult.receive_mint_amount, hd]

/-- Claim C6: for the `PayOfflineFee` task, every successful `step()`
advances the task state exactly one step along the sequence `Pending`,
`ProvingPayment`, `SubmittingPayment`, `FindingOpening`,
`UpdatingValidityProofs`, `Completed`; a `step()` that returns an error
leaves the state unchanged (the state machine never regresses); and the
commit point is `SubmittingPayment`. -/
theorem pay_offline_fee_step_spec
    (act : PayOfflineFeeTaskState → Except PayOfflineFeeTaskError Unit)
    (s : PayOfflineFeeTaskState) (h : s ≠ .Completed) :
    (∀ s', payOfflineFeeStep act s = some (.ok s') →
      s'.toIdx = s.toIdx + 1) ∧
    (∀ e, payOfflineFeeStep act s = some (.error e) →
      payOfflineFeeStateAfterStep act s = s) ∧
    PayOfflineFeeTaskState.commit_point = .SubmittingPayment := by
  refine ⟨?_, ?_, rfl⟩
  · intro s' hs'
    cases s with
    | Completed => exact absurd rfl h
    | Pending =>
        simp only [payOfflineFeeStep, Option.some.injEq, Except.ok.injEq] at hs'
        subst hs'
        rfl
    | ProvingPayment =>
        cases hact : act .ProvingPayment with
        | ok u =>
            simp [payOfflineFeeStep, hact, Except.map] at hs'
            subst hs'
            rfl
        | error e => simp [payOfflineFeeStep, hact, Except.map] at hs'
    | SubmittingPayment =>
        cases hact : act .SubmittingPayment with
        | ok u =>
            simp [payOfflineFeeStep, hact, Except.map] at hs'
            subst hs'
            rfl
        | error e => simp [payOfflineFeeStep, hact, Except.map] at hs'
    | FindingOpening =>
        cases hact : act .FindingOpening with
        | ok u =>
            simp [payOfflineFeeStep, hact, Except.map] at hs'
            subst hs'
            rfl
        | error e => simp [payOfflineFeeStep, hact, Except.map] at hs'
    | UpdatingValidityProofs =>
        cases hact : act .UpdatingValidityProofs with
        | ok u =>
            simp [payOfflineFeeStep, hact, Except.map] at hs'
            subst hs'
            rfl
        | error e => simp [payOfflineFeeStep, hact, Except.map] at hs'
  · intro e he
    unfold payOfflineFeeStateAfterStep
    rw [he]

/-- Witness for C6 with an always-succeeding action oracle from the
`ProvingPayment` state. -/
theorem pay_offline_fee_step_spec_witness :
    (∀ s', payOfflineFeeStep (fun _ => .ok ()) .ProvingPayment = some (.ok s') →
      s'.toIdx = PayOfflineFeeTaskState.toIdx .ProvingPayment + 1) ∧
    (∀ e, payOfflineFeeStep (fun _ => .ok ()) .ProvingPayment = some (.error e) →
      payOfflineFeeStateAfterStep (fun _ => .ok ()) .ProvingPayment = .ProvingPayment) ∧
    PayOfflineFeeTaskState.commit_point = .SubmittingPayment :=
  pay_offline_fee_step_spec (fun _ => .ok ()) .ProvingPayment (by decide)

/-- Counterexample for C7: on the S5 scenario (fee of 100 due, descriptor
claiming 99) construction fails, but not with a dedicated `InvalidFeeAmount`
error — the error is the `State` variant carrying `ERR_INVALID_FEE_AMOUNT`,
and its `retryable()` predicate is `true`, not `false` as claimed (every
`PayOfflineFeeTaskError` variant is retryable). -/
theorem pay_offline_fee_invalid_amount_cex :
    payOfflineFeeNew descC7 (some walletC7)
        = .error (.State ERR_INVALID_FEE_AMOUNT) ∧
    PayOfflineFeeTaskError.retryable (.State ERR_INVALID_FEE_AMOUNT) = true := by
  constructor
  · rfl
  · rfl

/-- Claim C7 as amended: for every `PayOfflineFee` descriptor whose amount
differs from the note amount derived from the wallet's balance for the
descriptor's mint, task construction fails with a `State` error carrying the
`ERR_INVALID_FEE_AMOUNT` message; that error is retryable (`retryable()` is
`true` for every variant), and no proof job is enqueued (construction
returns before any proof enqueue, which only happens in the
`ProvingPayment` step). -/
theorem pay_offline_fee_invalid_amount_spec
    (descriptor : PayOfflineFeeTaskDescriptor) (w : TaskWallet) (note : Note)
    (hnote : getWalletAndNote descriptor w = .ok note)
    (hamt : descriptor.amount ≠ note.amount) :
    payOfflineFeeNew descriptor (some w) = .error (.State ERR_INVALID_FEE_AMOUNT) ∧
    PayOfflineFeeTaskError.retryable (.State ERR_INVALID_FEE_AMOUNT) = true := by
  refine ⟨?_, rfl⟩
  simp [payOfflineFeeNew, hnote, hamt]

/-- Witness for C7's amended claim on the S5 scenario. -/
theorem pay_offline_fee_invalid_amount_spec_witness :
    payOfflineFeeNew descC7 (some walletC7) = .error (.State ERR_INVALID_FEE_AMOUNT) ∧
    PayOfflineFeeTaskError.retryable (.State ERR_INVALID_FEE_AMOUNT) = true :=
  pay_offline_fee_invalid_amount_spec descC7 walletC7 noteC7 (by rfl) (by decide)

end Renegade
